import Mathlib

/-!
Verification development for the Claude Code energy monitor statusline
(`statusline.py`).  The stateful core (`update_daily` with its day rollover,
call-boundary detection and delta accumulation), the energy estimator
(`energy_mid`), the order-of-magnitude formatter (`fmt_nrg`) and the
week/month aggregation (`_sum_range` / `weekly_monthly_totals`) are embedded
as pure Lean functions over explicit state.  Token counters are Python
integers, embedded as `Int`; the file-system effects (lock file, atomic
write, history append) are embedded as explicit state passing: the loaded
daily state is an `Option DailyState` (`none` = missing/corrupt file, which
`load` turns into the empty dict) and the history archive is the list of
entries appended so far.
-/

namespace EnergyMonitor

/-- Per-session record stored under `d["sessions"][sid]` in
`statusline.py` (`update_daily`, line 228-230): `i`/`o` are the last seen
`total_input_tokens`/`total_output_tokens`, `c`/`cw` the accumulated
cache-read/cache-write totals, `li` the last total-input baseline used by
the boundary detector, and `lcr`/`lcw` the last seen `current_usage`
cache-read/cache-write snapshot values. -/
structure SessionRecord where
  i : Int
  o : Int
  c : Int
  cw : Int
  li : Int
  lcr : Int
  lcw : Int
deriving Repr, DecidableEq

/-- Missing session record: every field defaults to 0, matching
`prev.get("li", 0)` etc. on the empty dict `prev = {}`. -/
def SessionRecord.default : SessionRecord := ⟨0, 0, 0, 0, 0, 0, 0⟩

/-- The persisted daily state dict: date string, per-session records and
the four day counters `input`, `output`, `cached`, `cache_write`.
Sessions are an association list keyed by session id. -/
structure DailyState where
  date : String
  sessions : List (String × SessionRecord)
  input : Int
  output : Int
  cached : Int
  cache_write : Int
deriving Repr, DecidableEq

/-- One line of the append-only history archive
(`statusline.py` lines 188-195). -/
structure HistoryEntry where
  date : String
  input : Int
  output : Int
  cache_read : Int
  cache_write : Int
  sessions : Nat
deriving Repr, DecidableEq

/-- One inbound usage snapshot: `total_input_tokens`, `total_output_tokens`
and the per-call `current_usage` cache fields (`cache_read_input_tokens`,
`cache_creation_input_tokens`). -/
structure Snapshot where
  inp : Int
  out : Int
  cu_cache_read : Int
  cu_cache_write : Int
deriving Repr, DecidableEq

/-- The fresh empty daily record for a new day
(`d = {"date": today, "sessions": {}, "input": 0, ...}`, line 203-204). -/
def emptyDaily (today : String) : DailyState :=
  ⟨today, [], 0, 0, 0, 0⟩

/-- Dictionary lookup `d["sessions"].get(sid, {})` with all-zero defaults. -/
def getSession : List (String × SessionRecord) → String → SessionRecord
  | [], _ => SessionRecord.default
  | (k, v) :: rest, sid => if k = sid then v else getSession rest sid

/-- Dictionary assignment `d["sessions"][sid] = rec`. -/
def setSession : List (String × SessionRecord) → String → SessionRecord →
    List (String × SessionRecord)
  | [], sid, r => [(sid, r)]
  | (k, v) :: rest, sid, r =>
      if k = sid then (k, r) :: rest else (k, v) :: setSession rest sid r

/-- The history entry serialized at rollover (`summary`, lines 188-195):
the old state's date, its four counters and `len(d["sessions"])`. -/
def toHistoryEntry (d : DailyState) : HistoryEntry :=
  ⟨d.date, d.input, d.output, d.cached, d.cache_write, d.sessions.length⟩

/-- Day-rollover step of `update_daily` (lines 184-204): if the loaded
state is missing or its date is not today, archive it when it has a truthy
date and `input + output > 0`, then replace it with the empty record for
today.  Returns the post-rollover state and the history archive. -/
def rollover (today : String) (loaded : Option DailyState)
    (history : List HistoryEntry) : DailyState × List HistoryEntry :=
  match loaded with
  | none => (emptyDaily today, history)
  | some d =>
      if d.date = today then (d, history)
      else if d.date ≠ "" ∧ 0 < d.input + d.output then
        (emptyDaily today, history ++ [toHistoryEntry d])
      else (emptyDaily today, history)

/-- Call-boundary detector (`new_call`, lines 215-217):
`inp > prev_li or cu_cache_read != prev_lcr or cu_cache_write != prev_lcw`. -/
def new_call (prev : SessionRecord) (inp cu_cr cu_cw : Int) : Bool :=
  decide (prev.li < inp) || decide (cu_cr ≠ prev.lcr) || decide (cu_cw ≠ prev.lcw)

/-- Session-accumulator step of `update_daily` (lines 206-234) applied to a
post-rollover state: detect the boundary, accumulate the per-call cache
values once per detected call, compute the clamped input/output deltas,
replace the session record, and add the deltas to the day counters.
Returns the new state together with `acc_cr` and `acc_cw`. -/
def update_session (d : DailyState) (sid : String) (s : Snapshot) :
    DailyState × Int × Int :=
  let prev := getSession d.sessions sid
  let nc := new_call prev s.inp s.cu_cache_read s.cu_cache_write
  let acc_cr := if nc then prev.c + s.cu_cache_read else prev.c
  let acc_cw := if nc then prev.cw + s.cu_cache_write else prev.cw
  let di := max 0 (s.inp - prev.i)
  let do_ := max 0 (s.out - prev.o)
  let d_cr := max 0 (acc_cr - prev.c)
  let d_cw := max 0 (acc_cw - prev.cw)
  let newRec : SessionRecord :=
    ⟨s.inp, s.out, acc_cr, acc_cw, s.inp, s.cu_cache_read, s.cu_cache_write⟩
  (⟨d.date, setSession d.sessions sid newRec,
    d.input + di, d.output + do_, d.cached + d_cr, d.cache_write + d_cw⟩,
   acc_cr, acc_cw)

/-- The tuple returned by `update_daily` (lines 237-238). -/
structure UpdateReturn where
  d_input : Int
  d_output : Int
  d_cached : Int
  d_cache_write : Int
  s_cache_read : Int
  s_cache_write : Int
deriving Repr, DecidableEq

/-- `update_daily(sid, inp, out, cu_cache_read, cu_cache_write)` on the
loaded state and history: rollover, then the session/day accumulation.
Returns the new in-memory state, the history archive, and the tuple the
function returns to its caller. -/
def update_daily (today : String) (loaded : Option DailyState)
    (history : List HistoryEntry) (sid : String) (s : Snapshot) :
    DailyState × List HistoryEntry × UpdateReturn :=
  let step := rollover today loaded history
  let upd := update_session step.1 sid s
  (upd.1, step.2,
   ⟨upd.1.input, upd.1.output, upd.1.cached, upd.1.cache_write,
    upd.2.1, upd.2.2⟩)

/-- The `save` function (lines 80-94) swallows every write error: on
success the file holds the new state, on failure the temporary file is
removed and the file keeps its previous content; no exception propagates.
Embedded as a function from the success flag and previous disk content to
the resulting disk content. -/
def save (writeOk : Bool) (disk : Option DailyState) (d : DailyState) :
    Option DailyState :=
  if writeOk then some d else disk

/-- `update_daily` including the persistence step (line 236): the state is
saved best-effort and the in-memory return tuple is produced regardless of
whether the save succeeded.  First component: resulting disk content. -/
def update_daily_persist (writeOk : Bool) (today : String)
    (disk : Option DailyState) (history : List HistoryEntry)
    (sid : String) (s : Snapshot) :
    Option DailyState × List HistoryEntry × UpdateReturn :=
  let r := update_daily today disk history sid s
  (save writeOk disk r.1, r.2.1, r.2.2)

/-- Iterated `update_daily` over a list of snapshots for one session,
threading the in-memory state and history archive exactly as consecutive
invocations do. -/
def run_snapshots (today sid : String) :
    List Snapshot → DailyState → List HistoryEntry →
    DailyState × List HistoryEntry
  | [], d, h => (d, h)
  | s :: rest, d, h =>
      let step := update_daily today (some d) h sid s
      run_snapshots today sid rest step.1 step.2.1

/-- The boundary decision taken at each snapshot of a same-day sequence:
`new_call` evaluated against the session record as it evolves under
`update_session`. -/
def boundary_flags (sid : String) : List Snapshot → DailyState → List Bool
  | [], _ => []
  | s :: rest, d =>
      new_call (getSession d.sessions sid) s.inp s.cu_cache_read s.cu_cache_write
        :: boundary_flags sid rest (update_session d sid s).1

/-- Sum of `f s` over the snapshots whose flag is set. -/
def flagged_sum (f : Snapshot → Int) : List Bool → List Snapshot → Int
  | b :: bs, s :: ss => (if b then f s else 0) + flagged_sum f bs ss
  | _, _ => 0

/- Energy estimation (`energy_mid`, lines 244-249, and the constants of
`energy_constants.py`).  Python computes with floats; the embedding uses ℚ,
on which the claimed identities are exact (and they are also exact in
binary floating point at the claimed inputs, since division by 1000 there
yields exactly representable results scaled by exact constants). -/

/-- Fresh-input energy constant, mWh per 1k tokens. -/
def E_IN : ℚ := 390

/-- Output (decode) energy constant, mWh per 1k tokens. -/
def E_OUT : ℚ := 1400

/-- Cache-read energy constant, mWh per 1k tokens. -/
def E_CACHE : ℚ := 15

/-- Cache-write energy constant, mWh per 1k tokens. -/
def E_CW : ℚ := 490

/-- `energy_mid(fresh_in, cached_in, cache_write_in, out)`:
mid energy estimate in mWh from token counts. -/
def energy_mid (fresh_in cached_in cache_write_in out : ℚ) : ℚ :=
  fresh_in / 1000 * E_IN + cached_in / 1000 * E_CACHE
    + cache_write_in / 1000 * E_CW + out / 1000 * E_OUT

/-- The `decade` computed by `fmt_nrg` (line 267):
`int(math.floor(math.log10(mwh)))`.  For `mwh ≥ 1` this is the unique `d`
with `10^d ≤ mwh < 10^(d+1)`, i.e. `Nat.log 10 ⌊mwh⌋`. -/
def decade (mwh : ℚ) : ℕ :=
  Nat.log 10 mwh.floor.toNat

/-- The snapped value `val` computed by `fmt_nrg` (lines 260-278), in mWh;
0 stands for the `mwh < 1 → "~0"` branch.  The source tests the fractional
part `frac = log10 mwh - decade` against 0.15, 0.50 and 0.85; over ℚ these
real-number comparisons are rendered exactly:
`frac < 0.15 ↔ mwh^20 < 10^(20*decade+3)`,
`frac < 0.50 ↔ mwh^2  < 10^(2*decade+1)`,
`frac < 0.85 ↔ mwh^20 < 10^(20*decade+17)`
(no rational lies on a threshold, since the thresholds are irrational). -/
def fmt_nrg_val (mwh : ℚ) : ℕ :=
  if mwh < 1 then 0
  else
    let d := decade mwh
    if mwh ^ 20 < (10 : ℚ) ^ (20 * d + 3) then 10 ^ d
    else if mwh ^ 2 < (10 : ℚ) ^ (2 * d + 1) then 2 * 10 ^ d
    else if mwh ^ 20 < (10 : ℚ) ^ (20 * d + 17) then 5 * 10 ^ d
    else 10 ^ (d + 1)

/-- A four-counter total (input, output, cache_read, cache_write). -/
structure Totals where
  input : Int
  output : Int
  cache_read : Int
  cache_write : Int
deriving Repr, DecidableEq

/-- Lexicographic comparison of character lists by code point: the order
Python uses on strings. -/
def ltCharList : List Char → List Char → Bool
  | [], [] => false
  | [], _ :: _ => true
  | _ :: _, [] => false
  | a :: as, b :: bs =>
      if a.toNat < b.toNat then true
      else if b.toNat < a.toNat then false
      else ltCharList as bs

/-- Python `a < b` on strings: lexicographic by code point. -/
def strLt (a b : String) : Bool := ltCharList a.data b.data

/-- Python `a <= b` on strings; on the total lexicographic order this is
the negation of `b < a`. -/
def strLe (a b : String) : Bool := !(strLt b a)

/-- The date-range test of `_sum_range` (line 307):
`start <= dt_str <= end`, lexicographic on ISO date strings. -/
def inRange (start stop : String) (e : HistoryEntry) : Bool :=
  strLe start e.date && strLe e.date stop

/-- `_sum_range(days, start, end)` (lines 302-312): sum the four token
fields over the loaded history entries whose date lies in `[start, stop]`.
`days` is the list of entries produced by `load_history` (one per date). -/
def sum_range (days : List HistoryEntry) (start stop : String) : Totals :=
  match days with
  | [] => ⟨0, 0, 0, 0⟩
  | e :: rest =>
      let t := sum_range rest start stop
      if inRange start stop e then
        ⟨t.input + e.input, t.output + e.output,
         t.cache_read + e.cache_read, t.cache_write + e.cache_write⟩
      else t

/-- Token-total computation of `weekly_monthly_totals` (lines 315-330):
week window `[w_start, yesterday]` plus today's live counters, and month
window `[m_start, yesterday]` plus today's live counters.  In the source
`w_start` is the Monday of the current week, `m_start` the 1st of the
month and `yesterday` the day before today, all as ISO strings. -/
def weekly_monthly_totals (days : List HistoryEntry)
    (w_start m_start yesterday : String) (live : Totals) : Totals × Totals :=
  let w := sum_range days w_start yesterday
  let m := sum_range days m_start yesterday
  (⟨w.input + live.input, w.output + live.output,
    w.cache_read + live.cache_read, w.cache_write + live.cache_write⟩,
   ⟨m.input + live.input, m.output + live.output,
    m.cache_read + live.cache_read, m.cache_write + live.cache_write⟩)

/-! Helper lemmas about the session dictionary and one accumulator step. -/

theorem getSession_setSession_self (l : List (String × SessionRecord))
    (sid : String) (r : SessionRecord) :
    getSession (setSession l sid r) sid = r := by
  induction l with
  | nil => simp [getSession, setSession]
  | cons p rest ih =>
      obtain ⟨k, v⟩ := p
      by_cases h : k = sid
      · simp [getSession, setSession, h]
      · simp [getSession, setSession, h, ih]

theorem getSession_setSession_ne (l : List (String × SessionRecord))
    (sid sid2 : String) (r : SessionRecord) (h : sid2 ≠ sid) :
    getSession (setSession l sid r) sid2 = getSession l sid2 := by
  have hne : sid ≠ sid2 := fun he => h he.symm
  induction l with
  | nil => simp [getSession, setSession, hne]
  | cons p rest ih =>
      obtain ⟨k, v⟩ := p
      by_cases hk : k = sid
      · subst hk
        simp [getSession, setSession, hne]
      · simp [getSession, setSession, hk, ih]

theorem update_session_date (d : DailyState) (sid : String) (s : Snapshot) :
    (update_session d sid s).1.date = d.date := rfl

theorem update_session_input (d : DailyState) (sid : String) (s : Snapshot) :
    (update_session d sid s).1.input
      = d.input + max 0 (s.inp - (getSession d.sessions sid).i) := rfl

theorem update_session_output (d : DailyState) (sid : String) (s : Snapshot) :
    (update_session d sid s).1.output
      = d.output + max 0 (s.out - (getSession d.sessions sid).o) := rfl

theorem update_session_cached (d : DailyState) (sid : String) (s : Snapshot) :
    (update_session d sid s).1.cached
      = d.cached + (if new_call (getSession d.sessions sid) s.inp
            s.cu_cache_read s.cu_cache_write
          then max 0 s.cu_cache_read else 0) := by
  by_cases h : new_call (getSession d.sessions sid) s.inp
      s.cu_cache_read s.cu_cache_write
  · simp [update_session, h]
  · simp [update_session, h]

theorem update_session_cache_write (d : DailyState) (sid : String) (s : Snapshot) :
    (update_session d sid s).1.cache_write
      = d.cache_write + (if new_call (getSession d.sessions sid) s.inp
            s.cu_cache_read s.cu_cache_write
          then max 0 s.cu_cache_write else 0) := by
  by_cases h : new_call (getSession d.sessions sid) s.inp
      s.cu_cache_read s.cu_cache_write
  · simp [update_session, h]
  · simp [update_session, h]

theorem update_session_rec_self (d : DailyState) (sid : String) (s : Snapshot) :
    getSession (update_session d sid s).1.sessions sid
      = ⟨s.inp, s.out,
         (getSession d.sessions sid).c
           + (if new_call (getSession d.sessions sid) s.inp
                s.cu_cache_read s.cu_cache_write then s.cu_cache_read else 0),
         (getSession d.sessions sid).cw
           + (if new_call (getSession d.sessions sid) s.inp
                s.cu_cache_read s.cu_cache_write then s.cu_cache_write else 0),
         s.inp, s.cu_cache_read, s.cu_cache_write⟩ := by
  by_cases h : new_call (getSession d.sessions sid) s.inp
      s.cu_cache_read s.cu_cache_write
  · simp [update_session, h, getSession_setSession_self]
  · simp [update_session, h, getSession_setSession_self]

theorem update_session_rec_ne (d : DailyState) (sid sid2 : String) (s : Snapshot)
    (h : sid2 ≠ sid) :
    getSession (update_session d sid s).1.sessions sid2
      = getSession d.sessions sid2 := by
  simp [update_session, getSession_setSession_ne _ _ _ _ h]

theorem update_session_acc (d : DailyState) (sid : String) (s : Snapshot) :
    (update_session d sid s).2.1
        = (getSession (update_session d sid s).1.sessions sid).c
      ∧ (update_session d sid s).2.2
        = (getSession (update_session d sid s).1.sessions sid).cw := by
  constructor
  · simp [update_session, getSession_setSession_self]
  · simp [update_session, getSession_setSession_self]

/-! Helper lemmas about rollover and `update_daily` on a same-day state. -/

theorem rollover_same_day (today : String) (d : DailyState)
    (h : List HistoryEntry) (hd : d.date = today) :
    rollover today (some d) h = (d, h) := by
  simp [rollover, hd]

theorem rollover_archive (today : String) (d : DailyState) (h : List HistoryEntry)
    (hne : d.date ≠ today) (hdate : d.date ≠ "") (hact : 0 < d.input + d.output) :
    rollover today (some d) h = (emptyDaily today, h ++ [toHistoryEntry d]) := by
  simp [rollover, hne, hdate, hact]

theorem rollover_drop (today : String) (d : DailyState) (h : List HistoryEntry)
    (hne : d.date ≠ today) (h0 : ¬(d.date ≠ "" ∧ 0 < d.input + d.output)) :
    rollover today (some d) h = (emptyDaily today, h) := by
  simp only [rollover, if_neg hne, if_neg h0]

theorem update_daily_today_state (today : String) (d : DailyState)
    (h : List HistoryEntry) (sid : String) (s : Snapshot) (hd : d.date = today) :
    (update_daily today (some d) h sid s).1 = (update_session d sid s).1 := by
  simp [update_daily, rollover_same_day today d h hd]

theorem update_daily_today_hist (today : String) (d : DailyState)
    (h : List HistoryEntry) (sid : String) (s : Snapshot) (hd : d.date = today) :
    (update_daily today (some d) h sid s).2.1 = h := by
  simp [update_daily, rollover_same_day today d h hd]

/-! Helper lemmas for summing per-call cache values over boundary flags. -/

theorem flagged_sum_replicate_false (f : Snapshot → Int) :
    ∀ (n : ℕ) (ss : List Snapshot),
      flagged_sum f (List.replicate n false) ss = 0 := by
  intro n
  induction n with
  | zero => intro ss; cases ss <;> simp [flagged_sum]
  | succ m ih =>
      intro ss
      cases ss with
      | nil => simp [flagged_sum]
      | cons s ss' => simp [List.replicate, flagged_sum, ih]

theorem flagged_sum_single (f : Snapshot → Int) :
    ∀ (snaps : List Snapshot) (k : ℕ) (hk : k < snaps.length),
      flagged_sum f ((List.range snaps.length).map fun j => decide (j = k)) snaps
        = f (snaps.get ⟨k, hk⟩) := by
  intro snaps
  induction snaps with
  | nil => intro k hk; exact absurd hk (Nat.not_lt_zero k)
  | cons s ss ih =>
      intro k hk
      rw [show (List.range (s :: ss).length).map (fun j => decide (j = k))
            = decide (0 = k)
              :: (List.range ss.length).map ((fun j => decide (j = k)) ∘ Nat.succ)
          from by
            rw [show (s :: ss).length = ss.length + 1 from rfl,
              List.range_succ_eq_map, List.map_cons, List.map_map]]
      cases k with
      | zero =>
          have htail : (List.range ss.length).map
                ((fun j => decide (j = 0)) ∘ Nat.succ)
              = List.replicate ss.length false := by
            rw [show ((fun j => decide (j = 0)) ∘ Nat.succ)
                  = fun _ : ℕ => false from funext fun j => by simp]
            simp
          rw [htail]
          simp [flagged_sum, flagged_sum_replicate_false]
      | succ k' =>
          have hk' : k' < ss.length := Nat.lt_of_succ_lt_succ hk
          have htail : (List.range ss.length).map
                ((fun j => decide (j = k' + 1)) ∘ Nat.succ)
              = (List.range ss.length).map fun j => decide (j = k') := by
            apply List.map_congr_left
            intro a _
            exact decide_eq_decide.mpr (by omega)
          rw [htail, show decide (0 = k' + 1) = false from by simp]
          show (0 : Int) + flagged_sum f
              ((List.range ss.length).map fun j => decide (j = k')) ss
            = f (ss.get ⟨k', hk'⟩)
          rw [zero_add]
          exact ih k' hk'

theorem boundary_flags_length (sid : String) :
    ∀ (snaps : List Snapshot) (d : DailyState),
      (boundary_flags sid snaps d).length = snaps.length := by
  intro snaps
  induction snaps with
  | nil => intro d; rfl
  | cons s rest ih => intro d; simp [boundary_flags, ih]

/-- Workhorse induction: iterating same-day `update_daily` invocations
leaves the date and history unchanged, adds each snapshot's per-call cache
values to the session's accumulated totals exactly at the detected
boundaries, and adds the corresponding (clamped) deltas to the day's
cache counters. -/
theorem run_snapshots_spec (today sid : String) :
    ∀ (snaps : List Snapshot) (d : DailyState) (h : List HistoryEntry),
      d.date = today →
      (run_snapshots today sid snaps d h).1.date = today
      ∧ (run_snapshots today sid snaps d h).2 = h
      ∧ (getSession (run_snapshots today sid snaps d h).1.sessions sid).c
          = (getSession d.sessions sid).c
            + flagged_sum (fun s => s.cu_cache_read)
                (boundary_flags sid snaps d) snaps
      ∧ (getSession (run_snapshots today sid snaps d h).1.sessions sid).cw
          = (getSession d.sessions sid).cw
            + flagged_sum (fun s => s.cu_cache_write)
                (boundary_flags sid snaps d) snaps
      ∧ (run_snapshots today sid snaps d h).1.cached
          = d.cached + flagged_sum (fun s => max 0 s.cu_cache_read)
                (boundary_flags sid snaps d) snaps
      ∧ (run_snapshots today sid snaps d h).1.cache_write
          = d.cache_write + flagged_sum (fun s => max 0 s.cu_cache_write)
                (boundary_flags sid snaps d) snaps := by
  intro snaps
  induction snaps with
  | nil =>
      intro d h hd
      exact ⟨hd, rfl, by simp [run_snapshots, boundary_flags, flagged_sum],
        by simp [run_snapshots, boundary_flags, flagged_sum],
        by simp [run_snapshots, boundary_flags, flagged_sum],
        by simp [run_snapshots, boundary_flags, flagged_sum]⟩
  | cons s rest ih =>
      intro d h hd
      have hrun : run_snapshots today sid (s :: rest) d h
          = run_snapshots today sid rest (update_session d sid s).1 h := by
        show run_snapshots today sid rest
            (update_daily today (some d) h sid s).1
            (update_daily today (some d) h sid s).2.1
          = _
        rw [update_daily_today_state today d h sid s hd,
            update_daily_today_hist today d h sid s hd]
      have hd' : (update_session d sid s).1.date = today := by
        rw [update_session_date]; exact hd
      obtain ⟨ihdate, ihhist, ihc, ihcw, ihcached, ihcwr⟩ :=
        ih (update_session d sid s).1 h hd'
      have hflags : boundary_flags sid (s :: rest) d
          = new_call (getSession d.sessions sid) s.inp s.cu_cache_read
              s.cu_cache_write :: boundary_flags sid rest (update_session d sid s).1 :=
        rfl
      refine ⟨by rw [hrun]; exact ihdate, by rw [hrun]; exact ihhist, ?_, ?_, ?_, ?_⟩
      · rw [hrun, ihc, update_session_rec_self, hflags]
        simp [flagged_sum, add_assoc]
      · rw [hrun, ihcw, update_session_rec_self, hflags]
        simp [flagged_sum, add_assoc]
      · rw [hrun, ihcached, update_session_cached, hflags]
        simp [flagged_sum, add_assoc]
      · rw [hrun, ihcwr, update_session_cache_write, hflags]
        simp [flagged_sum, add_assoc]

/-! Helper lemmas about the week/month range summation. -/

theorem sum_range_input (days : List HistoryEntry) (start stop : String) :
    (sum_range days start stop).input
      = ((days.filter (inRange start stop)).map HistoryEntry.input).sum := by
  induction days with
  | nil => simp [sum_range]
  | cons e rest ih =>
      by_cases h : inRange start stop e
      · simp only [sum_range, h, if_true, List.filter_cons_of_pos h,
          List.map_cons, List.sum_cons]
        omega
      · simp only [sum_range, h, if_false, List.filter_cons_of_neg h, ih,
          Bool.false_eq_true]

theorem sum_range_output (days : List HistoryEntry) (start stop : String) :
    (sum_range days start stop).output
      = ((days.filter (inRange start stop)).map HistoryEntry.output).sum := by
  induction days with
  | nil => simp [sum_range]
  | cons e rest ih =>
      by_cases h : inRange start stop e
      · simp only [sum_range, h, if_true, List.filter_cons_of_pos h,
          List.map_cons, List.sum_cons]
        omega
      · simp only [sum_range, h, if_false, List.filter_cons_of_neg h, ih,
          Bool.false_eq_true]

theorem sum_range_cache_read (days : List HistoryEntry) (start stop : String) :
    (sum_range days start stop).cache_read
      = ((days.filter (inRange start stop)).map HistoryEntry.cache_read).sum := by
  induction days with
  | nil => simp [sum_range]
  | cons e rest ih =>
      by_cases h : inRange start stop e
      · simp only [sum_range, h, if_true, List.filter_cons_of_pos h,
          List.map_cons, List.sum_cons]
        omega
      · simp only [sum_range, h, if_false, List.filter_cons_of_neg h, ih,
          Bool.false_eq_true]

theorem sum_range_cache_write (days : List HistoryEntry) (start stop : String) :
    (sum_range days start stop).cache_write
      = ((days.filter (inRange start stop)).map HistoryEntry.cache_write).sum := by
  induction days with
  | nil => simp [sum_range]
  | cons e rest ih =>
      by_cases h : inRange start stop e
      · simp only [sum_range, h, if_true, List.filter_cons_of_pos h,
          List.map_cons, List.sum_cons]
        omega
      · simp only [sum_range, h, if_false, List.filter_cons_of_neg h, ih,
          Bool.false_eq_true]

theorem inRange_excludes_after (start stop : String) (e : HistoryEntry)
    (today : String) (hdate : e.date = today) (hlt : strLt stop today = true) :
    inRange start stop e = false := by
  have : strLe e.date stop = false := by
    rw [hdate]
    simp [strLe, hlt]
  simp [inRange, this]

/-! Helper lemmas about the order-of-magnitude formatter. -/

theorem decade_999 : decade 999 = 2 := by
  have h : (999 : ℚ).floor.toNat = 999 := by decide
  rw [decade, h]
  exact Nat.log_eq_of_pow_le_of_lt_pow (by norm_num) (by norm_num)

theorem decade_130 : decade 130 = 2 := by
  have h : (130 : ℚ).floor.toNat = 130 := by decide
  rw [decade, h]
  exact Nat.log_eq_of_pow_le_of_lt_pow (by norm_num) (by norm_num)

theorem decade_140 : decade 140 = 2 := by
  have h : (140 : ℚ).floor.toNat = 140 := by decide
  rw [decade, h]
  exact Nat.log_eq_of_pow_le_of_lt_pow (by norm_num) (by norm_num)

theorem decade_150 : decade 150 = 2 := by
  have h : (150 : ℚ).floor.toNat = 150 := by decide
  rw [decade, h]
  exact Nat.log_eq_of_pow_le_of_lt_pow (by norm_num) (by norm_num)

theorem fmt_nrg_val_999 : fmt_nrg_val 999 = 1000 := by
  rw [fmt_nrg_val, if_neg (by norm_num)]
  simp only [decade_999]
  norm_num

theorem fmt_nrg_val_130 : fmt_nrg_val 130 = 100 := by
  rw [fmt_nrg_val, if_neg (by norm_num)]
  simp only [decade_130]
  norm_num

theorem fmt_nrg_val_140 : fmt_nrg_val 140 = 100 := by
  rw [fmt_nrg_val, if_neg (by norm_num)]
  simp only [decade_140]
  norm_num

theorem fmt_nrg_val_150 : fmt_nrg_val 150 = 200 := by
  rw [fmt_nrg_val, if_neg (by norm_num)]
  simp only [decade_150]
  norm_num

/-! Claim theorems. -/

/-- C7: the midpoint energy estimator satisfies the claimed identities:
`energy_mid 1000 0 0 0 = E_IN = 390` mWh, `energy_mid 0 0 0 0 = 0`,
doubling the fresh-input argument (others zero) doubles the result, and the
estimator is linear in its four arguments jointly; it is a pure function of
its arguments and the constant table by construction. -/
theorem claim_C7 :
    energy_mid 1000 0 0 0 = E_IN
    ∧ E_IN = 390
    ∧ energy_mid 0 0 0 0 = 0
    ∧ (∀ f : ℚ, energy_mid (2 * f) 0 0 0 = 2 * energy_mid f 0 0 0)
    ∧ (∀ x y z w x2 y2 z2 w2 : ℚ,
        energy_mid (x + x2) (y + y2) (z + z2) (w + w2)
          = energy_mid x y z w + energy_mid x2 y2 z2 w2) := by
  refine ⟨by norm_num [energy_mid, E_IN, E_CACHE, E_CW, E_OUT], rfl,
    by norm_num [energy_mid], fun f => by unfold energy_mid; ring,
    fun x y z w x2 y2 z2 w2 => by unfold energy_mid; ring⟩

/-- C8 counterexample: the claim says a midpoint of 140 mWh snaps to
200 mWh, but `fmt_nrg` snaps 140 to 100 (the 0.15 fractional-log10
threshold sits at `10^2.15 ≈ 141.25 > 140`). -/
theorem claim_C8_counterexample :
    fmt_nrg_val 140 = 100 ∧ fmt_nrg_val 140 ≠ 200 := by
  refine ⟨fmt_nrg_val_140, ?_⟩
  rw [fmt_nrg_val_140]
  decide

/-- C8 amended: for every midpoint of at least 1 mWh, `fmt_nrg` snaps to
1, 2, 5 or 10 times `10^decade` according to the fractional-log10
thresholds 0.15, 0.50 and 0.85; 999 mWh snaps to 1000 (one of {500,1000}),
130 snaps to 100, and 140 snaps to 100 (not 200, since
`10^0.15 ≈ 1.4125 > 1.40`); 150 snaps to 200. -/
theorem claim_C8 :
    (∀ q : ℚ, 1 ≤ q →
      fmt_nrg_val q = 10 ^ decade q ∨ fmt_nrg_val q = 2 * 10 ^ decade q
      ∨ fmt_nrg_val q = 5 * 10 ^ decade q ∨ fmt_nrg_val q = 10 ^ (decade q + 1))
    ∧ fmt_nrg_val 999 = 1000
    ∧ fmt_nrg_val 130 = 100
    ∧ fmt_nrg_val 140 = 100
    ∧ fmt_nrg_val 150 = 200 := by
  refine ⟨?_, fmt_nrg_val_999, fmt_nrg_val_130, fmt_nrg_val_140, fmt_nrg_val_150⟩
  intro q hq
  simp only [fmt_nrg_val, if_neg (not_lt.mpr hq)]
  split_ifs <;> tauto

/-- C8 witness: the amended snap theorem applied at the concrete
midpoint 999. -/
theorem claim_C8_witness :
    fmt_nrg_val 999 = 10 ^ decade 999 ∨ fmt_nrg_val 999 = 2 * 10 ^ decade 999
    ∨ fmt_nrg_val 999 = 5 * 10 ^ decade 999
    ∨ fmt_nrg_val 999 = 10 ^ (decade 999 + 1) :=
  claim_C8.1 999 (by norm_num)

/-- C2 counterexample: on the very first snapshot for a session (no stored
record, all-zero baseline) the boundary flag is TRUE as soon as the
snapshot carries positive input — here `total_input_tokens = 1000` — and
the per-call cache value 7 is added to the session total, contradicting
the claim that `new_call` is false on the first snapshot whatever values
it carries. -/
theorem claim_C2_counterexample :
    new_call SessionRecord.default 1000 0 0 = true
    ∧ (update_daily "2026-10-12" none [] "s" ⟨1000, 0, 7, 0⟩).2.2.s_cache_read = 7 := by
  exact ⟨rfl, rfl⟩

/-- C2 amended: on the very first snapshot for a session (no
`SessionRecord`, so the lookup yields the all-zero baseline) the
`new_call` flag is false exactly when the snapshot carries no positive
`total_input_tokens` and zero current-call cache fields; any positive
input or nonzero cache value does signal a boundary (so the first
observed call is counted, once, growing from the zero baseline). -/
theorem claim_C2 (d : DailyState) (sid : String) (inp cr cw : Int)
    (hnone : getSession d.sessions sid = SessionRecord.default) :
    new_call (getSession d.sessions sid) inp cr cw = false
      ↔ inp ≤ 0 ∧ cr = 0 ∧ cw = 0 := by
  rw [hnone]
  simp [new_call, SessionRecord.default, not_lt, and_assoc]

/-- C2 witness: a first snapshot carrying all-zero values yields
`new_call = false`. -/
theorem claim_C2_witness :
    new_call (getSession (emptyDaily "2026-10-12").sessions "s") 0 0 0 = false :=
  (claim_C2 (emptyDaily "2026-10-12") "s" 0 0 0 rfl).mpr ⟨le_refl 0, rfl, rfl⟩

/-- C9: persistence failure is non-fatal and preserves the returned
totals: the history and return tuple of `update_daily` with persistence do
not depend on whether the write succeeded, the returned tuple is exactly
the in-memory result, and on failure the disk keeps its previous
content (the temporary file having been removed best-effort, no exception
propagates). -/
theorem claim_C9 (writeOk : Bool) (today : String) (disk : Option DailyState)
    (h : List HistoryEntry) (sid : String) (s : Snapshot) :
    (update_daily_persist writeOk today disk h sid s).2
      = (update_daily today disk h sid s).2
    ∧ (update_daily_persist false today disk h sid s).2.2
      = (update_daily_persist true today disk h sid s).2.2
    ∧ save false disk (update_daily today disk h sid s).1 = disk := ⟨rfl, rfl, rfl⟩

/-- C3: day rollover correctness: when the loaded state's date is a
(nonempty) date other than today and it has nonzero activity, exactly one
`HistoryEntry` carrying the old date, the four counters and the session
count is appended to the archive, the state is replaced by the empty
record for today before the snapshot is applied, and the resulting day
counters hold only today's delta. -/
theorem claim_C3 (today : String) (d : DailyState) (h : List HistoryEntry)
    (sid : String) (s : Snapshot) (hne : d.date ≠ today) (hdate : d.date ≠ "")
    (hact : 0 < d.input + d.output) :
    (update_daily today (some d) h sid s).2.1
      = h ++ [⟨d.date, d.input, d.output, d.cached, d.cache_write, d.sessions.length⟩]
    ∧ (update_daily today (some d) h sid s).1
      = (update_session (emptyDaily today) sid s).1
    ∧ (update_daily today (some d) h sid s).1.input = max 0 s.inp
    ∧ (update_daily today (some d) h sid s).1.output = max 0 s.out
    ∧ (update_daily today (some d) h sid s).1.date = today := by
  have hr := rollover_archive today d h hne hdate hact
  have h1 : (update_daily today (some d) h sid s).2.1 = h ++ [toHistoryEntry d] := by
    simp [update_daily, hr]
  have h2 : (update_daily today (some d) h sid s).1
      = (update_session (emptyDaily today) sid s).1 := by
    simp [update_daily, hr]
  refine ⟨h1, h2, ?_, ?_, ?_⟩
  · rw [h2, update_session_input]
    simp [emptyDaily, getSession, SessionRecord.default]
  · rw [h2, update_session_output]
    simp [emptyDaily, getSession, SessionRecord.default]
  · rw [h2, update_session_date]
    rfl

/-- C3 witness: a state dated yesterday with input 100 and output 50,
updated today with a snapshot of 7 input and 3 output tokens, archives
exactly one entry for yesterday with input 100 and output 50, and today's
state holds only today's delta. -/
theorem claim_C3_witness :
    (update_daily "2026-10-12" (some ⟨"2026-10-11", [], 100, 50, 0, 0⟩) []
        "s" ⟨7, 3, 0, 0⟩).2.1
      = [⟨"2026-10-11", 100, 50, 0, 0, 0⟩]
    ∧ (update_daily "2026-10-12" (some ⟨"2026-10-11", [], 100, 50, 0, 0⟩) []
        "s" ⟨7, 3, 0, 0⟩).1.input = 7
    ∧ (update_daily "2026-10-12" (some ⟨"2026-10-11", [], 100, 50, 0, 0⟩) []
        "s" ⟨7, 3, 0, 0⟩).1.output = 3 := by
  have hc := claim_C3 "2026-10-12" ⟨"2026-10-11", [], 100, 50, 0, 0⟩ []
      "s" ⟨7, 3, 0, 0⟩ (by decide) (by decide) (by decide)
  exact ⟨hc.1, (hc.2.2.1).trans (by decide), (hc.2.2.2.1).trans (by decide)⟩

/-- C5: non-negativity of the input/output deltas: each `update_daily`
adds `max 0 (current - stored)` to the day's input and output counters
relative to the post-rollover state, this delta is never negative (the
counters never decrease), and whenever the snapshot value is lower than
the stored value the delta is exactly 0. -/
theorem claim_C5 (today : String) (loaded : Option DailyState)
    (h : List HistoryEntry) (sid : String) (s : Snapshot) :
    (update_daily today loaded h sid s).1.input
      = (rollover today loaded h).1.input
        + max 0 (s.inp - (getSession (rollover today loaded h).1.sessions sid).i)
    ∧ (update_daily today loaded h sid s).1.output
      = (rollover today loaded h).1.output
        + max 0 (s.out - (getSession (rollover today loaded h).1.sessions sid).o)
    ∧ (rollover today loaded h).1.input ≤ (update_daily today loaded h sid s).1.input
    ∧ (rollover today loaded h).1.output ≤ (update_daily today loaded h sid s).1.output
    ∧ (s.inp < (getSession (rollover today loaded h).1.sessions sid).i →
        (update_daily today loaded h sid s).1.input
          = (rollover today loaded h).1.input)
    ∧ (s.out < (getSession (rollover today loaded h).1.sessions sid).o →
        (update_daily today loaded h sid s).1.output
          = (rollover today loaded h).1.output) := by
  have h1 : (update_daily today loaded h sid s).1
      = (update_session (rollover today loaded h).1 sid s).1 := rfl
  refine ⟨by rw [h1, update_session_input], by rw [h1, update_session_output],
    ?_, ?_, ?_, ?_⟩
  · rw [h1, update_session_input]
    exact le_add_of_nonneg_right (le_max_left 0 _)
  · rw [h1, update_session_output]
    exact le_add_of_nonneg_right (le_max_left 0 _)
  · intro hlt
    rw [h1, update_session_input,
      max_eq_left (sub_nonpos.mpr (le_of_lt hlt)), add_zero]
  · intro hlt
    rw [h1, update_session_output,
      max_eq_left (sub_nonpos.mpr (le_of_lt hlt)), add_zero]

/-- C5 witness: a same-day state whose stored session has seen 10 input
and 5 output tokens, fed a snapshot reporting only 4 and 2 (out-of-order
delivery), leaves both day counters unchanged. -/
theorem claim_C5_witness :
    (update_daily "2026-10-12"
        (some ⟨"2026-10-12", [("s", ⟨10, 5, 0, 0, 10, 0, 0⟩)], 10, 5, 0, 0⟩) []
        "s" ⟨4, 2, 0, 0⟩).1.input = 10
    ∧ (update_daily "2026-10-12"
        (some ⟨"2026-10-12", [("s", ⟨10, 5, 0, 0, 10, 0, 0⟩)], 10, 5, 0, 0⟩) []
        "s" ⟨4, 2, 0, 0⟩).1.output = 5 := by
  have hc := claim_C5 "2026-10-12"
      (some ⟨"2026-10-12", [("s", ⟨10, 5, 0, 0, 10, 0, 0⟩)], 10, 5, 0, 0⟩) []
      "s" ⟨4, 2, 0, 0⟩
  exact ⟨(hc.2.2.2.2.1 (by decide)).trans (by decide),
    (hc.2.2.2.2.2 (by decide)).trans (by decide)⟩

/-- C10 (implicit): on a date change, a history entry is appended only
when the stored input plus output is strictly positive; an old day with
zero input and output — even with nonzero cache counters — is replaced by
a fresh empty record for today without being archived, so its cache
activity is dropped. -/
theorem claim_C10 (today : String) (d : DailyState) (h : List HistoryEntry)
    (sid : String) (s : Snapshot) (hne : d.date ≠ today) :
    ((update_daily today (some d) h sid s).2.1 ≠ h → 0 < d.input + d.output)
    ∧ (d.input + d.output ≤ 0 →
        (update_daily today (some d) h sid s).2.1 = h
        ∧ (update_daily today (some d) h sid s).1
            = (update_session (emptyDaily today) sid s).1) := by
  by_cases hc : d.date ≠ "" ∧ 0 < d.input + d.output
  · exact ⟨fun _ => hc.2, fun hle => absurd hc.2 (by omega)⟩
  · have hr := rollover_drop today d h hne hc
    have h1 : (update_daily today (some d) h sid s).2.1 = h := by
      simp [update_daily, hr]
    have h2 : (update_daily today (some d) h sid s).1
        = (update_session (emptyDaily today) sid s).1 := by
      simp [update_daily, hr]
    exact ⟨fun hcontra => absurd h1 hcontra, fun _ => ⟨h1, h2⟩⟩

/-- C10 witness: an old day with input 0, output 0 but cached 5 is
replaced without archiving: the history stays empty and the new day's
cached counter starts from zero, dropping the 5. -/
theorem claim_C10_witness :
    (update_daily "2026-10-12" (some ⟨"2026-10-11", [], 0, 0, 5, 0⟩) []
        "s" ⟨1, 0, 0, 0⟩).2.1 = ([] : List HistoryEntry)
    ∧ (update_daily "2026-10-12" (some ⟨"2026-10-11", [], 0, 0, 5, 0⟩) []
        "s" ⟨1, 0, 0, 0⟩).1.cached = 0 := by
  have hc := claim_C10 "2026-10-12" ⟨"2026-10-11", [], 0, 0, 5, 0⟩ []
      "s" ⟨1, 0, 0, 0⟩ (by decide)
  have h2 := hc.2 (by decide)
  exact ⟨h2.1, by rw [h2.2]; decide⟩

/-- C6: monotone day counters: an `update_daily` that does not cross a
date boundary (stored date equals today) leaves each of the four day
counters and every session's accumulated cache counters at least their
previous value (for non-negative snapshot cache fields), and the
accumulated cache counters change only when a call boundary is
detected. -/
theorem claim_C6 (today : String) (d : DailyState) (h : List HistoryEntry)
    (sid : String) (s : Snapshot) (hd : d.date = today)
    (hcr : 0 ≤ s.cu_cache_read) (hcw : 0 ≤ s.cu_cache_write) :
    d.input ≤ (update_daily today (some d) h sid s).1.input
    ∧ d.output ≤ (update_daily today (some d) h sid s).1.output
    ∧ d.cached ≤ (update_daily today (some d) h sid s).1.cached
    ∧ d.cache_write ≤ (update_daily today (some d) h sid s).1.cache_write
    ∧ (∀ sid2 : String,
        (getSession d.sessions sid2).c
          ≤ (getSession (update_daily today (some d) h sid s).1.sessions sid2).c
        ∧ (getSession d.sessions sid2).cw
          ≤ (getSession (update_daily today (some d) h sid s).1.sessions sid2).cw)
    ∧ (new_call (getSession d.sessions sid) s.inp s.cu_cache_read
          s.cu_cache_write = false →
        (getSession (update_daily today (some d) h sid s).1.sessions sid).c
          = (getSession d.sessions sid).c
        ∧ (getSession (update_daily today (some d) h sid s).1.sessions sid).cw
          = (getSession d.sessions sid).cw) := by
  rw [update_daily_today_state today d h sid s hd]
  refine ⟨?_, ?_, ?_, ?_, ?_, ?_⟩
  · rw [update_session_input]
    exact le_add_of_nonneg_right (le_max_left 0 _)
  · rw [update_session_output]
    exact le_add_of_nonneg_right (le_max_left 0 _)
  · rw [update_session_cached]
    apply le_add_of_nonneg_right
    split_ifs
    · exact le_max_left 0 _
    · exact le_refl 0
  · rw [update_session_cache_write]
    apply le_add_of_nonneg_right
    split_ifs
    · exact le_max_left 0 _
    · exact le_refl 0
  · intro sid2
    by_cases h2 : sid2 = sid
    · subst h2
      rw [update_session_rec_self]
      constructor
      · show (getSession d.sessions sid2).c
            ≤ (getSession d.sessions sid2).c
              + (if new_call (getSession d.sessions sid2) s.inp
                    s.cu_cache_read s.cu_cache_write then s.cu_cache_read else 0)
        apply le_add_of_nonneg_right
        split_ifs
        · exact hcr
        · exact le_refl 0
      · show (getSession d.sessions sid2).cw
            ≤ (getSession d.sessions sid2).cw
              + (if new_call (getSession d.sessions sid2) s.inp
                    s.cu_cache_read s.cu_cache_write then s.cu_cache_write else 0)
        apply le_add_of_nonneg_right
        split_ifs
        · exact hcw
        · exact le_refl 0
    · rw [update_session_rec_ne d sid sid2 s h2]
      exact ⟨le_refl _, le_refl _⟩
  · intro hnc
    rw [update_session_rec_self]
    constructor
    · show (getSession d.sessions sid).c
          + (if new_call (getSession d.sessions sid) s.inp
                s.cu_cache_read s.cu_cache_write then s.cu_cache_read else 0)
        = (getSession d.sessions sid).c
      rw [hnc]
      simp
    · show (getSession d.sessions sid).cw
          + (if new_call (getSession d.sessions sid) s.inp
                s.cu_cache_read s.cu_cache_write then s.cu_cache_write else 0)
        = (getSession d.sessions sid).cw
      rw [hnc]
      simp

/-- C6 witness: a same-day update with a growing snapshot leaves the day
input counter and the session's accumulated cache-read at or above their
previous values 10 and 3. -/
theorem claim_C6_witness :
    (10 : Int) ≤ (update_daily "2026-10-12"
        (some ⟨"2026-10-12", [("s", ⟨10, 5, 3, 1, 10, 2, 1⟩)], 10, 5, 3, 1⟩) []
        "s" ⟨15, 8, 4, 2⟩).1.input
    ∧ (3 : Int) ≤ (getSession (update_daily "2026-10-12"
        (some ⟨"2026-10-12", [("s", ⟨10, 5, 3, 1, 10, 2, 1⟩)], 10, 5, 3, 1⟩) []
        "s" ⟨15, 8, 4, 2⟩).1.sessions "s").c := by
  have hc := claim_C6 "2026-10-12"
      ⟨"2026-10-12", [("s", ⟨10, 5, 3, 1, 10, 2, 1⟩)], 10, 5, 3, 1⟩ []
      "s" ⟨15, 8, 4, 2⟩ rfl (by decide) (by decide)
  exact ⟨hc.1, (hc.2.2.2.2.1 "s").1⟩

/-- C4: window aggregation never double counts today: for any archive
content and live counters, each week-window total equals the live counter
plus the sum of the archive entries whose date lies in the inclusive range
from the window start to yesterday; an archive entry dated today is never
in that range (`yesterday < today` lexicographically for ISO dates), and
the live counters are added unconditionally, so no archive entry for today
needs to exist; the month window has the same shape. -/
theorem claim_C4 (days : List HistoryEntry) (w_start m_start yesterday today : String)
    (live : Totals) (hy : strLt yesterday today = true) :
    (weekly_monthly_totals days w_start m_start yesterday live).1.input
      = live.input
        + ((days.filter (inRange w_start yesterday)).map HistoryEntry.input).sum
    ∧ (weekly_monthly_totals days w_start m_start yesterday live).1.output
      = live.output
        + ((days.filter (inRange w_start yesterday)).map HistoryEntry.output).sum
    ∧ (weekly_monthly_totals days w_start m_start yesterday live).1.cache_read
      = live.cache_read
        + ((days.filter (inRange w_start yesterday)).map HistoryEntry.cache_read).sum
    ∧ (weekly_monthly_totals days w_start m_start yesterday live).1.cache_write
      = live.cache_write
        + ((days.filter (inRange w_start yesterday)).map HistoryEntry.cache_write).sum
    ∧ (weekly_monthly_totals days w_start m_start yesterday live).2.input
      = live.input
        + ((days.filter (inRange m_start yesterday)).map HistoryEntry.input).sum
    ∧ (weekly_monthly_totals days w_start m_start yesterday live).2.output
      = live.output
        + ((days.filter (inRange m_start yesterday)).map HistoryEntry.output).sum
    ∧ (weekly_monthly_totals days w_start m_start yesterday live).2.cache_read
      = live.cache_read
        + ((days.filter (inRange m_start yesterday)).map HistoryEntry.cache_read).sum
    ∧ (weekly_monthly_totals days w_start m_start yesterday live).2.cache_write
      = live.cache_write
        + ((days.filter (inRange m_start yesterday)).map HistoryEntry.cache_write).sum
    ∧ (∀ e ∈ days, e.date = today →
        inRange w_start yesterday e = false ∧ inRange m_start yesterday e = false) := by
  refine ⟨?_, ?_, ?_, ?_, ?_, ?_, ?_, ?_,
    fun e _ hdate => ⟨inRange_excludes_after w_start yesterday e today hdate hy,
      inRange_excludes_after m_start yesterday e today hdate hy⟩⟩
  · show (sum_range days w_start yesterday).input + live.input = _
    rw [sum_range_input]
    omega
  · show (sum_range days w_start yesterday).output + live.output = _
    rw [sum_range_output]
    omega
  · show (sum_range days w_start yesterday).cache_read + live.cache_read = _
    rw [sum_range_cache_read]
    omega
  · show (sum_range days w_start yesterday).cache_write + live.cache_write = _
    rw [sum_range_cache_write]
    omega
  · show (sum_range days m_start yesterday).input + live.input = _
    rw [sum_range_input]
    omega
  · show (sum_range days m_start yesterday).output + live.output = _
    rw [sum_range_output]
    omega
  · show (sum_range days m_start yesterday).cache_read + live.cache_read = _
    rw [sum_range_cache_read]
    omega
  · show (sum_range days m_start yesterday).cache_write + live.cache_write = _
    rw [sum_range_cache_write]
    omega

/-- C4 witness: with one archive entry inside the week window, one entry
dated today, and live input 100, the week input total is 101 — the entry
dated today is outside the summed range and contributes nothing. -/
theorem claim_C4_witness :
    (weekly_monthly_totals
        [⟨"2026-10-08", 1, 2, 3, 4, 1⟩, ⟨"2026-10-12", 10, 20, 30, 40, 1⟩]
        "2026-10-06" "2026-10-01" "2026-10-11" ⟨100, 200, 300, 400⟩).1.input = 101
    ∧ inRange "2026-10-06" "2026-10-11" ⟨"2026-10-12", 10, 20, 30, 40, 1⟩ = false := by
  have hc := claim_C4
      [⟨"2026-10-08", 1, 2, 3, 4, 1⟩, ⟨"2026-10-12", 10, 20, 30, 40, 1⟩]
      "2026-10-06" "2026-10-01" "2026-10-11" "2026-10-12"
      ⟨100, 200, 300, 400⟩ (by decide)
  refine ⟨hc.1.trans (by decide), ?_⟩
  exact (hc.2.2.2.2.2.2.2.2 ⟨"2026-10-12", 10, 20, 30, 40, 1⟩ (by decide) rfl).1

/-- C1: exactly-once cache accumulation: over a same-day sequence of
snapshots for one session starting from no stored record, in which exactly
snapshot `k` is a detected call boundary (all other boundary flags false),
the session's accumulated cache-read after the whole sequence equals
exactly the `cache_read_input_tokens` value carried by snapshot `k` (not a
multiple of it), symmetrically for cache-write, and the day's cache
counters grow by exactly those boundary values. -/
theorem claim_C1 (today sid : String) (d : DailyState) (h : List HistoryEntry)
    (snaps : List Snapshot) (k : ℕ) (hk : k < snaps.length) (hd : d.date = today)
    (hsess : getSession d.sessions sid = SessionRecord.default)
    (hflags : boundary_flags sid snaps d
      = (List.range snaps.length).map fun j => decide (j = k))
    (hnn : ∀ s ∈ snaps, 0 ≤ s.cu_cache_read ∧ 0 ≤ s.cu_cache_write) :
    (getSession (run_snapshots today sid snaps d h).1.sessions sid).c
      = (snaps.get ⟨k, hk⟩).cu_cache_read
    ∧ (getSession (run_snapshots today sid snaps d h).1.sessions sid).cw
      = (snaps.get ⟨k, hk⟩).cu_cache_write
    ∧ (run_snapshots today sid snaps d h).1.cached
      = d.cached + (snaps.get ⟨k, hk⟩).cu_cache_read
    ∧ (run_snapshots today sid snaps d h).1.cache_write
      = d.cache_write + (snaps.get ⟨k, hk⟩).cu_cache_write := by
  obtain ⟨-, -, hc, hcw, hcached, hcwr⟩ := run_snapshots_spec today sid snaps d h hd
  have hnnk := hnn (snaps.get ⟨k, hk⟩) (List.get_mem snaps k hk)
  refine ⟨?_, ?_, ?_, ?_⟩
  · rw [hc, hsess, hflags,
      flagged_sum_single (fun s => s.cu_cache_read) snaps k hk]
    simp [SessionRecord.default]
  · rw [hcw, hsess, hflags,
      flagged_sum_single (fun s => s.cu_cache_write) snaps k hk]
    simp [SessionRecord.default]
  · rw [hcached, hflags,
      flagged_sum_single (fun s => max 0 s.cu_cache_read) snaps k hk]
    show d.cached + max 0 (snaps.get ⟨k, hk⟩).cu_cache_read = _
    rw [max_eq_right hnnk.1]
  · rw [hcwr, hflags,
      flagged_sum_single (fun s => max 0 s.cu_cache_write) snaps k hk]
    show d.cache_write + max 0 (snaps.get ⟨k, hk⟩).cu_cache_write = _
    rw [max_eq_right hnnk.2]

/-- C1 witness: three snapshots — an all-zero first one, a boundary
carrying cache-read 7 and cache-write 2, and an identical repeat — leave
the session's accumulated cache-read at exactly 7 (not 14 or 21) and the
day's cached counter at 7. -/
theorem claim_C1_witness :
    (getSession (run_snapshots "2026-10-12" "s"
        [⟨0, 0, 0, 0⟩, ⟨5, 3, 7, 2⟩, ⟨5, 3, 7, 2⟩]
        (emptyDaily "2026-10-12") []).1.sessions "s").c = 7
    ∧ (run_snapshots "2026-10-12" "s"
        [⟨0, 0, 0, 0⟩, ⟨5, 3, 7, 2⟩, ⟨5, 3, 7, 2⟩]
        (emptyDaily "2026-10-12") []).1.cached = 7 := by
  have hc := claim_C1 "2026-10-12" "s" (emptyDaily "2026-10-12") []
      [⟨0, 0, 0, 0⟩, ⟨5, 3, 7, 2⟩, ⟨5, 3, 7, 2⟩] 1 (by decide) rfl rfl
      (by decide) (by decide)
  exact ⟨hc.1, by rw [hc.2.2.1]; decide⟩

end EnergyMonitor
